import Mathlib

/-!
Shallow embedding of the `smtp-s3-dump` mail gateway (Rust) and proofs about
its specification claims.

The embedding follows the source files `src/smtp.rs`, `src/s3.rs`, `src/db.rs`
and `src/tls.rs`.  External collaborators (the `smtpbis` transport, the
`mail_parser` crate, the S3 client, the Postgres pool, `mime_guess`, the
filesystem) are modelled as explicit parameters/oracles: a message parser is a
function `List Nat → Option Message`, the S3 `put` outcome is a predicate on
keys, the DB check result is an `Except Unit Bool`, the TLS load result is an
`Except String CertifiedKey`.  Rust `HashSet<String>` allow-lists are modelled
as `Option (List String)` with `contains` membership; Rust `HashMap` collect
(later duplicates overwrite earlier ones) is modelled by `insertOverwrite`.
Byte buffers (`Vec<u8>`) are `List Nat`.
-/

namespace SmtpS3Dump

/-- SMTP reply, mirroring `smtpbis::Reply::new(code, None, text)`. -/
structure Reply where
  code : Nat
  text : String
deriving DecidableEq, Repr

/-- Configuration snapshot, mirroring `Config` in `smtp.rs` (the S3 config,
pg pool and TLS config fields are external handles and carry no state the
claims depend on, so they are omitted from the snapshot model). -/
structure Config where
  domain : String
  bucket : String
  allowed_rcpts : Option (List String)
  allowed_froms : Option (List String)
  check_db : Bool
deriving DecidableEq, Repr

/-- Per-connection session state, mirroring `SmtpSession` in `smtp.rs`
(`from` is a Lean keyword, hence the field name `from_`). -/
structure Session where
  config : Config
  rcpt : Option String
  from_ : Option String
  data : List Nat
deriving DecidableEq, Repr

/-- `SmtpSession::reset` (smtp.rs lines 90-95). -/
def reset (s : Session) : Session :=
  { s with from_ := none, rcpt := none, data := [] }

/-- `SmtpSession::check_address` (smtp.rs lines 124-135): membership in an
optional allow-set, `true` when no set is configured. -/
def check_address (allowed_map : Option (List String)) (addr : String) : Bool :=
  match allowed_map with
  | some m => m.contains addr
  | none => true

/-- The recipient allow-set test from `rcpt` (smtp.rs lines 190-198):
`self.config.allowed_rcpts.as_ref().is_some_and(|c| !c.contains(&rcpt))`. -/
def rcptSetRejects (cfg : Config) (addr : String) : Bool :=
  match cfg.allowed_rcpts with
  | some c => !(c.contains addr)
  | none => false

/-- `rustyknife::rfc5321::ReversePath`: either the null reverse-path or a
mailbox (modelled post-parse as its local part and domain strings). -/
inductive ReversePath where
  | null : ReversePath
  | path (mailbox domain : String) : ReversePath
deriving DecidableEq, Repr

/-- `Handler::mail` (smtp.rs lines 171-181): a non-null reverse-path sets the
sender to `"{mailbox}@{domain}"`; the null reverse-path leaves the sender
field untouched.  Always replies `None`. -/
def mailCmd (s : Session) (rp : ReversePath) : Option Reply × Session :=
  match rp with
  | .null => (none, s)
  | .path mailbox domain => (none, { s with from_ := some (mailbox ++ "@" ++ domain) })

/-- Outcome of one `rcpt` call: either the Rust code panics (the
`self.from.as_ref().unwrap()` on `None`), or it finishes with an optional
reply, a resulting session, and a flag recording whether `db::check_address`
was queried. -/
inductive RcptResult where
  | panic : RcptResult
  | done (reply : Option Reply) (s : Session) (dbCalled : Bool) : RcptResult
deriving DecidableEq, Repr

/-- The reply of a non-panicking `rcpt` call. -/
def RcptResult.replyOut : RcptResult → Option (Option Reply)
  | .panic => none
  | .done r _ _ => some r

/-- The session of a non-panicking `rcpt` call. -/
def RcptResult.sessionOut : RcptResult → Option Session
  | .panic => none
  | .done _ s _ => some s

/-- Whether the DB was queried during a non-panicking `rcpt` call. -/
def RcptResult.dbOut : RcptResult → Option Bool
  | .panic => none
  | .done _ _ b => some b

/-- `Handler::rcpt` (smtp.rs lines 184-227).  The forward-path has already
been resolved by `rcpt.into_mailbox(&self.config.domain).into_parts()`
(external `rustyknife` code), so the command takes the resolved
mailbox/domain pair.  `dbResult` is the outcome the Postgres query
`db::check_address` would produce (db.rs lines 37-43); it is only consulted
when `config.check_db` is set. -/
def rcptCmd (s : Session) (mailbox domain : String)
    (dbResult : Except Unit Bool) : RcptResult :=
  let rcptAddr := mailbox ++ "@" ++ domain
  match s.from_ with
  | none => .panic
  | some fromAddr =>
    if rcptSetRejects s.config rcptAddr then
      .done (some ⟨550, "mailbox unavailable"⟩) s false
    else if !(check_address s.config.allowed_froms fromAddr) then
      .done (some ⟨550, "mailbox unavailable"⟩) s false
    else if s.config.check_db then
      match dbResult with
      | .ok res =>
        if !res then
          .done (some ⟨550, "mailbox unavailable"⟩) s true
        else
          .done none { s with rcpt := some rcptAddr } true
      | .error _ =>
        .done (some ⟨451, "could not handle request"⟩) s true
    else
      .done none { s with rcpt := some rcptAddr } false

/-- The fixed maximum message size advertised by `ehlo` (smtp.rs line 153). -/
def max_message_size : Nat := 100000000

/-- `EhloKeywords` is a map from keyword to optional value; `insert`
overwrites an existing entry for the same keyword (Rust `BTreeMap::insert`).
We model it as an association list where a later insert removes any earlier
binding of the same key. -/
def kwInsert (kws : List (String × Option String)) (kv : String × Option String) :
    List (String × Option String) :=
  (kws.filter (fun p => p.1 != kv.1)) ++ [kv]

/-- `Handler::ehlo` (smtp.rs lines 147-162): inserts DSN, 8BITMIME and
SIZE=100000000 into the transport-provided initial keyword set, resets the
session, and succeeds with the greeting `"hello {domain}"`.  It never takes
the `Err(Reply)` branch. -/
def ehloCmd (s : Session) (domain : String)
    (initial_keywords : List (String × Option String)) :
    Except Reply (String × List (String × Option String)) × Session :=
  let kws := kwInsert (kwInsert (kwInsert initial_keywords
    ("DSN", none)) ("8BITMIME", none)) ("SIZE", some (toString max_message_size))
  (.ok ("hello " ++ domain, kws), reset s)

/-! ## Ingestion pipeline (`s3.rs` / `db.rs`) -/

/-- One message part (`mail_parser::MessagePart`): its raw contents
(`contents()`, bytes) and its decoded text (`text_contents()`). -/
structure MessagePart where
  contents : List Nat
  textContents : Option String
deriving DecidableEq, Repr

/-- One attachment: `attachment_name()` (may be absent) and raw contents. -/
structure Attachment where
  name : Option String
  contents : List Nat
deriving DecidableEq, Repr

/-- A parsed message (`mail_parser::Message`) as consumed by
`upload_message`: `message_id()`, `date()` (already rendered by
`to_rfc3339`), the raw header list in message order with duplicates
preserved (`headers_raw()`), the text/html body parts in order
(`text_bodies()` / `html_bodies()`), and the attachments in message order. -/
structure Message where
  messageId : Option String
  date : Option String
  headersRaw : List (String × String)
  textBodies : List MessagePart
  htmlBodies : List MessagePart
  attachments : List Attachment
deriving DecidableEq, Repr

/-- ASCII whitespace (the characters relevant to mail headers); used to
model Rust `str::trim`. -/
def isWs (c : Char) : Bool :=
  c = ' ' || c = '\t' || c = '\n' || c = '\r'

/-- Rust `str::trim`: removes leading and trailing whitespace. -/
def trimStr (s : String) : String :=
  ⟨((s.data.dropWhile isWs).reverse.dropWhile isWs).reverse⟩

/-- Rust `str::to_lowercase`, modelled charwise. -/
def lowerStr (s : String) : String :=
  ⟨s.data.map Char.toLower⟩

/-- Rust `HashMap` collect from an iterator of pairs: a later pair with the
same key overwrites the earlier binding. -/
def insertOverwrite (m : List (String × String)) (kv : String × String) :
    List (String × String) :=
  (m.filter (fun p => p.1 != kv.1)) ++ [kv]

/-- `message.headers_raw().map(|(k, v)| (k, v.trim())).collect::<HashMap>()`
(s3.rs lines 55-56): duplicate header names collapse to a single binding
(the last occurrence wins) and every value is whitespace-trimmed. -/
def headersMap (hs : List (String × String)) : List (String × String) :=
  hs.foldl (fun m kv => insertOverwrite m (kv.1, trimStr kv.2)) []

/-- Byte rendering of a string (abstraction of UTF-8 serialization; no claim
inspects the exact encoding). -/
def strBytes (s : String) : List Nat :=
  s.data.map Char.toNat

/-- Serialization of the header map (`serde_json::to_vec_pretty`, s3.rs line
57), abstracted to a deterministic executable rendering: no claim depends on
the byte format, only on which map is serialized. -/
def encodeHeaders (m : List (String × String)) : List Nat :=
  strBytes (String.intercalate "\n" (m.map (fun kv => kv.1 ++ ": " ++ kv.2)))

/-- One blob-store PUT request: the object key and body
(`upload_file(&s3_client, bucket, path, body)`). -/
structure UploadReq where
  key : String
  body : List Nat
deriving DecidableEq, Repr

/-- One attachment descriptor as recorded in `attachments_metadata`
(s3.rs lines 42-47): index, filename, relative path, and the content type
inferred by `mime_guess::from_path(&path).first_raw()` (external crate,
passed in as the oracle `mimeGuess`). -/
structure AttMeta where
  index : Nat
  filename : String
  rel_path : String
  content_type : Option String
deriving DecidableEq, Repr

/-- The metadata row inserted by `db::insert_mail` as called from s3.rs
lines 89-104: recipient, sender, trimmed text/html body contents, the header
map, and the attachment descriptors. -/
structure Record where
  rcpt : String
  from_ : String
  body_text : String
  body_html : String
  headers : List (String × String)
  attachments : List AttMeta
deriving DecidableEq, Repr

/-- Failure causes of one `upload_message` run (the `anyhow` contexts in
s3.rs, plus an upload or insert failure). -/
inductive PipeErr where
  | noMessageId : PipeErr
  | noDate : PipeErr
  | attachmentNoName : PipeErr
  | uploadFailed : PipeErr
  | insertFailed : PipeErr
deriving DecidableEq, Repr

/-- Zero-padded index formatting `{:02}` (Rust `format!`): widths below two
are left-padded with `0`, larger indices print in full. -/
def pad2 (n : Nat) : String :=
  if n < 10 then "0" ++ toString n else toString n

/-- The base key prefix (s3.rs line 26):
`format!("{}/{}/{}-{}/", rcpt.to_lowercase(), from, date, message_id)`. -/
def basePath (fromAddr rcptAddr date messageId : String) : String :=
  lowerStr rcptAddr ++ "/" ++ fromAddr ++ "/" ++ date ++ "-" ++ messageId ++ "/"

/-- The attachment loop (s3.rs lines 31-53): enumerate attachments from
index `ix`; an attachment without a name aborts the whole collection (the
`collect::<Result<Vec<_>>>()?` short-circuit) before any upload future is
awaited; otherwise each attachment yields one upload request at
`{base}attachments/{:02}-{name}` and one metadata descriptor. -/
def processAttachments (mimeGuess : String → Option String) (base : String) :
    List Attachment → Nat → Except PipeErr (List UploadReq × List AttMeta)
  | [], _ => .ok ([], [])
  | a :: rest, ix =>
    match a.name with
    | none => .error .attachmentNoName
    | some nm =>
      let path := base ++ "attachments/" ++ pad2 ix ++ "-" ++ nm
      match processAttachments mimeGuess base rest (ix + 1) with
      | .error e => .error e
      | .ok (us, ms) =>
        .ok (⟨path, a.contents⟩ :: us, ⟨ix, nm, path, mimeGuess path⟩ :: ms)

/-- The deterministic part of `upload_message` (s3.rs lines 24-83): the list
of upload requests that will be issued (attachment uploads in message order,
then `headers.json`, then `body.txt` for the first text body when present,
then `body.html` for the first html body when present) and the metadata row
that would be inserted.  Fails before issuing anything on a missing
message-id, missing date, or unnamed attachment. -/
def planMessage (mimeGuess : String → Option String)
    (fromAddr rcptAddr : String) (m : Message) :
    Except PipeErr (List UploadReq × Record) :=
  match m.messageId with
  | none => .error .noMessageId
  | some mid =>
    match m.date with
    | none => .error .noDate
    | some date =>
      let base := basePath fromAddr rcptAddr date mid
      match processAttachments mimeGuess base m.attachments 0 with
      | .error e => .error e
      | .ok (attUploads, attMeta) =>
        let hmap := headersMap m.headersRaw
        let headerUpload : UploadReq := ⟨base ++ "headers.json", encodeHeaders hmap⟩
        let textUploads : List UploadReq :=
          match m.textBodies.head? with
          | some p => [⟨base ++ "body.txt", p.contents⟩]
          | none => []
        let htmlUploads : List UploadReq :=
          match m.htmlBodies.head? with
          | some p => [⟨base ++ "body.html", p.contents⟩]
          | none => []
        let uploads := attUploads ++ [headerUpload] ++ textUploads ++ htmlUploads
        let record : Record :=
          { rcpt := rcptAddr
            from_ := fromAddr
            body_text := trimStr (((m.textBodies.head?).bind MessagePart.textContents).getD "")
            body_html := trimStr (((m.htmlBodies.head?).bind MessagePart.textContents).getD "")
            headers := hmap
            attachments := attMeta }
        .ok (uploads, record)

/-- Observable outcome of one `upload_message` run: the PUT requests actually
issued to the object store (all of them are issued concurrently by
`try_join_all`, so a failing upload does not stop the others), the metadata
row written (present exactly when every upload and the insert succeeded),
and the overall result returned to the caller. -/
structure PipeResult where
  issued : List UploadReq
  record : Option Record
  result : Except PipeErr Unit
deriving Repr

/-- `upload_message` (s3.rs lines 14-106) with the object store and the
relational store as oracles: `uploadOk k` tells whether the PUT at key `k`
succeeds, `insertOk` whether the row insert succeeds.  Planning failures
(missing message-id/date, unnamed attachment) abort before any upload is
issued; a failed upload aborts before the insert; the row is inserted only
after every upload succeeded (s3.rs lines 86-104). -/
def upload_message (mimeGuess : String → Option String)
    (uploadOk : String → Bool) (insertOk : Bool)
    (fromAddr rcptAddr : String) (m : Message) : PipeResult :=
  match planMessage mimeGuess fromAddr rcptAddr m with
  | .error e => ⟨[], none, .error e⟩
  | .ok (uploads, record) =>
    if uploads.all (fun u => uploadOk u.key) then
      if insertOk then ⟨uploads, some record, .ok ()⟩
      else ⟨uploads, none, .error .insertFailed⟩
    else ⟨uploads, none, .error .uploadFailed⟩

/-! ## Message completion (`handle_data`, `data`, `bdat`) -/

/-- The pipeline invocation made by `handle_data`: the sender and recipient
moved out of the session, the parsed message, and the session state at the
moment `s3::upload_message` is called. -/
structure PipelineCall where
  from_ : String
  rcpt : String
  msg : Message
  sessionAtCall : Session
deriving DecidableEq, Repr

/-- Result of one `handle_data` run that did not panic. -/
structure HandleDataOut where
  call : Option PipelineCall
  ok : Bool
  s : Session
deriving DecidableEq, Repr

/-- `SmtpSession::handle_data` (smtp.rs lines 97-121).  `parse` is the
`MessageParser` oracle, `pipelineOk` the outcome of `s3::upload_message`.
`self.from.take().unwrap()` and `self.rcpt.take().unwrap()` panic when the
field is `None` (result `none`); otherwise both fields are moved out (set to
`None`) before anything else happens, the buffer is parsed in place, the
pipeline is invoked on the parsed message, and only on success `reset()`
clears the buffer. -/
def handle_data (parse : List Nat → Option Message)
    (pipelineOk : Message → Bool) (s : Session) : Option HandleDataOut :=
  match s.from_, s.rcpt with
  | some f, some r =>
    match parse s.data with
    | none => some ⟨none, false, { s with from_ := none, rcpt := none }⟩
    | some m =>
      if pipelineOk m then
        some ⟨some ⟨f, r, m, { s with from_ := none, rcpt := none }⟩, true,
          reset { s with from_ := none, rcpt := none }⟩
      else
        some ⟨some ⟨f, r, m, { s with from_ := none, rcpt := none }⟩, false,
          { s with from_ := none, rcpt := none }⟩
  | _, _ => none

/-- `Handler::data` (smtp.rs lines 235-258): reinitializes the buffer, reads
every chunk from the stream into it, invokes `handle_data`, and maps its
outcome to a 250 reply (with byte/line count) or a 451 reply.  `none` models
the panic propagated from `handle_data`. -/
def dataCmd (parse : List Nat → Option Message) (pipelineOk : Message → Bool)
    (s : Session) (chunks : List (List Nat)) : Option (Option Reply × Session) :=
  let s0 : Session := { s with data := chunks.flatten }
  let nbLines := chunks.length
  match handle_data parse pipelineOk s0 with
  | none => none
  | some out =>
    if out.ok then
      some (some ⟨250, "Received " ++ toString s0.data.length ++ " bytes in " ++
        toString nbLines ++ " lines."⟩, out.s)
    else
      some (some ⟨451, "could not handle request"⟩, out.s)

/-- `Handler::bdat` (smtp.rs lines 261-284): appends every chunk to the
existing buffer; on a non-final call replies nothing; on the final call
invokes `handle_data` and replies nothing on success, 451 on failure. -/
def bdatCmd (parse : List Nat → Option Message) (pipelineOk : Message → Bool)
    (s : Session) (chunks : List (List Nat)) (last : Bool) :
    Option (Option Reply × Session) :=
  let s1 : Session := { s with data := s.data ++ chunks.flatten }
  if last then
    match handle_data parse pipelineOk s1 with
    | none => none
    | some out =>
      if out.ok then some (none, out.s)
      else some (some ⟨451, "could not handle request"⟩, out.s)
  else
    some (none, s1)

/-! ## TLS credential resolver (`tls.rs`) -/

/-- A certificate chain plus private key (`rustls CertifiedKey`), opaque
contents. -/
structure CertifiedKey where
  certs : List String
  key : String
deriving DecidableEq, Repr

/-- `CertificateResolver` (tls.rs lines 23-27): the currently installed
pair behind the atomically swappable reference. -/
structure CertificateResolver where
  certified_key : CertifiedKey
deriving DecidableEq, Repr

/-- `CertificateResolver::refresh` (tls.rs lines 68-74).  The filesystem
read/parse `load_certs_and_key` is external I/O, passed in as its outcome
`loaded`: on success the new pair is stored; on failure the `?` returns
before the store, leaving the installed pair untouched. -/
def refresh (r : CertificateResolver) (loaded : Except String CertifiedKey) :
    CertificateResolver × Except String Unit :=
  match loaded with
  | .ok k => (⟨k⟩, .ok ())
  | .error e => (r, .error e)

/-- `ResolvesServerCert::resolve` (tls.rs lines 79-82): always `Some` of the
currently installed pair, never an error, no I/O. -/
def resolve (r : CertificateResolver) : Option CertifiedKey :=
  some r.certified_key

/-! ## Concrete sample values used by witnesses and counterexamples -/

/-- A sample configuration snapshot with no allow-sets and no DB check. -/
def sampleConfig : Config :=
  { domain := "example.org", bucket := "mail", allowed_rcpts := none,
    allowed_froms := none, check_db := false }

/-- A fresh session as built by `SmtpBackend::new_session`. -/
def freshSession : Session :=
  { config := sampleConfig, rcpt := none, from_ := none, data := [] }

/-- A session holding a sender, against a recipient allow-set. -/
def rcptSetSession : Session :=
  { freshSession with
    config := { sampleConfig with allowed_rcpts := some ["ok@y.com"] },
    from_ := some "a@x.com" }

/-- A session holding a sender, against a sender allow-set. -/
def fromSetSession : Session :=
  { freshSession with
    config := { sampleConfig with allowed_froms := some ["ok@x.com"] },
    from_ := some "a@x.com" }

/-- A session holding a sender, with the DB check enabled. -/
def dbCheckSession : Session :=
  { freshSession with
    config := { sampleConfig with check_db := true },
    from_ := some "a@x.com" }

/-- A session holding a sender, with no allow-sets and no DB check. -/
def plainFromSession : Session :=
  { freshSession with from_ := some "a@x.com" }

/-! ## Claims -/

/-- C5: after `refresh` succeeds, `resolve` returns the newly loaded
certificate/key pair; after `refresh` fails, `resolve` keeps returning the
previously installed pair unchanged; `resolve` never returns an error or an
absent pair. -/
theorem C5_refresh_resolve :
    (∀ (r : CertificateResolver) (k : CertifiedKey),
      (refresh r (.ok k)).1 = ⟨k⟩ ∧ resolve (refresh r (.ok k)).1 = some k ∧
      (refresh r (.ok k)).2 = .ok ()) ∧
    (∀ (r : CertificateResolver) (e : String),
      (refresh r (.error e)).1 = r ∧
      resolve (refresh r (.error e)).1 = some r.certified_key ∧
      (refresh r (.error e)).2 = .error e) ∧
    (∀ r : CertificateResolver, resolve r = some r.certified_key) :=
  ⟨fun _ _ => ⟨rfl, rfl, rfl⟩, fun _ _ => ⟨rfl, rfl, rfl⟩, fun _ => rfl⟩

/-- C9: a null reverse-path on MAIL yields no reply and leaves the sender
unset; a subsequent RCPT on that session reaches the `unwrap` on `None`
(modelled as `.panic`) instead of returning an SMTP error reply, and so does
`handle_data` — no step explicitly rejects the absent sender. -/
theorem C9_null_sender_panics (s : Session) (h : s.from_ = none) :
    (mailCmd s .null).1 = none ∧
    (mailCmd s .null).2 = s ∧
    (∀ (mailbox domain : String) (dbResult : Except Unit Bool),
      rcptCmd (mailCmd s .null).2 mailbox domain dbResult = .panic) ∧
    (∀ (parse : List Nat → Option Message) (pipelineOk : Message → Bool),
      handle_data parse pipelineOk (mailCmd s .null).2 = none) := by
  refine ⟨rfl, rfl, ?_, ?_⟩
  · intro mailbox domain dbResult
    simp only [mailCmd, rcptCmd, h]
  · intro parse pipelineOk
    simp only [mailCmd, handle_data, h]

/-- Witness for C9 at a fresh session. -/
theorem C9_null_sender_panics_witness :
    (mailCmd freshSession .null).1 = none ∧
    rcptCmd (mailCmd freshSession .null).2 "b" "y.com" (.ok true) = .panic ∧
    handle_data (fun _ => none) (fun _ => true) (mailCmd freshSession .null).2 = none :=
  ⟨(C9_null_sender_panics freshSession rfl).1,
   (C9_null_sender_panics freshSession rfl).2.2.1 "b" "y.com" (.ok true),
   (C9_null_sender_panics freshSession rfl).2.2.2 (fun _ => none) (fun _ => true)⟩

/-- C2: with a sender present, (a) a configured recipient allow-set that
does not contain the resolved recipient makes `rcpt` reply 550 and leaves
the session (in particular its recipient) unchanged, without a DB call;
(b) a configured sender allow-set that does not contain the sender makes
`rcpt` reply 550 and leaves the session unchanged, regardless of recipient
validity; (c) the recipient-set check comes first: when it rejects, the
outcome is the same for every sender allow-set and every DB outcome — the
sender check and the DB are never consulted. -/
theorem C2_rcpt_allow_sets (s : Session) (f mailbox domain : String)
    (dbResult : Except Unit Bool) (hf : s.from_ = some f) :
    (rcptSetRejects s.config (mailbox ++ "@" ++ domain) = true →
      rcptCmd s mailbox domain dbResult =
        .done (some ⟨550, "mailbox unavailable"⟩) s false) ∧
    (check_address s.config.allowed_froms f = false →
      rcptCmd s mailbox domain dbResult =
        .done (some ⟨550, "mailbox unavailable"⟩) s false) ∧
    (rcptSetRejects s.config (mailbox ++ "@" ++ domain) = true →
      ∀ (froms : Option (List String)) (dbResult2 : Except Unit Bool),
        rcptCmd { s with config := { s.config with allowed_froms := froms } }
            mailbox domain dbResult2 =
          .done (some ⟨550, "mailbox unavailable"⟩)
            { s with config := { s.config with allowed_froms := froms } } false) := by
  refine ⟨?_, ?_, ?_⟩
  · intro hrej
    simp only [rcptCmd, hf, hrej, if_true]
  · intro hsend
    by_cases hrej : rcptSetRejects s.config (mailbox ++ "@" ++ domain) = true
    · simp only [rcptCmd, hf, hrej, if_true]
    · simp only [rcptCmd, hf, Bool.not_eq_true] at hrej ⊢
      simp only [hrej, Bool.false_eq_true, if_false, hsend, Bool.not_false, if_true]
  · intro hrej froms dbResult2
    have hrej2 : rcptSetRejects
        ({ s with config := { s.config with allowed_froms := froms } } : Session).config
        (mailbox ++ "@" ++ domain) = true := hrej
    simp only [rcptCmd, hf, hrej2, if_true]

/-- Witness for C2: recipient `b@y.com` against allow-set `["ok@y.com"]`,
and sender `a@x.com` against sender allow-set `["ok@x.com"]`. -/
theorem C2_rcpt_allow_sets_witness :
    rcptCmd rcptSetSession "b" "y.com" (.ok true) =
      .done (some ⟨550, "mailbox unavailable"⟩) rcptSetSession false ∧
    rcptCmd fromSetSession "b" "y.com" (.ok true) =
      .done (some ⟨550, "mailbox unavailable"⟩) fromSetSession false :=
  ⟨(C2_rcpt_allow_sets rcptSetSession "a@x.com" "b" "y.com" (.ok true) rfl).1
      (by decide),
   (C2_rcpt_allow_sets fromSetSession "a@x.com" "b" "y.com" (.ok true) rfl).2.1
      (by decide)⟩

/-- C3: with a sender present and both allow-set checks passing, when the DB
check flag is set a `false` DB answer yields reply 550, a DB error yields
reply 451 "could not handle request" (both with a DB call made and the
recipient left unset), and when the flag is unset no DB call is made and the
recipient is accepted (no reply, recipient stored). -/
theorem C3_rcpt_db_check (s : Session) (f mailbox domain : String)
    (hf : s.from_ = some f)
    (hr : rcptSetRejects s.config (mailbox ++ "@" ++ domain) = false)
    (hs : check_address s.config.allowed_froms f = true) :
    (s.config.check_db = true →
      rcptCmd s mailbox domain (.ok false) =
        .done (some ⟨550, "mailbox unavailable"⟩) s true ∧
      (∀ e : Unit, rcptCmd s mailbox domain (.error e) =
        .done (some ⟨451, "could not handle request"⟩) s true)) ∧
    (s.config.check_db = false →
      ∀ dbResult : Except Unit Bool,
        rcptCmd s mailbox domain dbResult =
          .done none { s with rcpt := some (mailbox ++ "@" ++ domain) } false) := by
  constructor
  · intro hdb
    constructor
    · simp only [rcptCmd, hf, hr, Bool.false_eq_true, if_false, hs,
        Bool.not_true, if_true, hdb, Bool.not_false]
    · intro e
      simp only [rcptCmd, hf, hr, Bool.false_eq_true, if_false, hs,
        Bool.not_true, if_true, hdb]
  · intro hdb dbResult
    simp only [rcptCmd, hf, hr, Bool.false_eq_true, if_false, hs,
      Bool.not_true, hdb, if_true]

/-- Witness for C3: DB check enabled with a rejecting answer, an erroring
answer, and DB check disabled. -/
theorem C3_rcpt_db_check_witness :
    rcptCmd dbCheckSession "b" "y.com" (.ok false) =
      .done (some ⟨550, "mailbox unavailable"⟩) dbCheckSession true ∧
    rcptCmd dbCheckSession "b" "y.com" (.error ()) =
      .done (some ⟨451, "could not handle request"⟩) dbCheckSession true ∧
    rcptCmd plainFromSession "b" "y.com" (.ok true) =
      .done none { plainFromSession with rcpt := some "b@y.com" } false :=
  ⟨((C3_rcpt_db_check dbCheckSession "a@x.com" "b" "y.com" rfl rfl rfl).1 rfl).1,
   ((C3_rcpt_db_check dbCheckSession "a@x.com" "b" "y.com" rfl rfl rfl).1 rfl).2 (),
   (C3_rcpt_db_check plainFromSession "a@x.com" "b" "y.com" rfl rfl rfl).2 rfl
      (.ok true)⟩

/-! ### EHLO keyword lemmas -/

/-- Looking up the just-inserted keyword finds its value. -/
theorem kwInsert_lookup_self (m : List (String × Option String))
    (kv : String × Option String) :
    (kwInsert m kv).lookup kv.1 = some kv.2 := by
  unfold kwInsert
  induction m with
  | nil => simp [List.lookup]
  | cons p m ih =>
    by_cases h : p.1 = kv.1
    · simpa [List.filter, h] using ih
    · have hb : (p.1 != kv.1) = true := by simpa using h
      simp only [List.filter, hb, List.cons_append, List.lookup]
      have : (kv.1 == p.1) = false := by simpa using (Ne.symm h)
      simp [this, ih]

/-- Inserting a keyword leaves lookups of other keywords unchanged. -/
theorem kwInsert_lookup_ne (m : List (String × Option String))
    (kv : String × Option String) (k : String) (h : k ≠ kv.1) :
    (kwInsert m kv).lookup k = m.lookup k := by
  unfold kwInsert
  induction m with
  | nil =>
    have hk : (k == kv.1) = false := by simpa using h
    simp [List.lookup, hk]
  | cons p m ih =>
    by_cases hp : p.1 = kv.1
    · have hb : (p.1 != kv.1) = false := by simpa using hp
      have hk : (k == p.1) = false := by
        simp only [beq_eq_false_iff_ne, ne_eq]
        exact fun hkp => h (hkp.trans hp)
      simp only [List.filter, hb, List.lookup, hk]
      exact ih
    · have hb : (p.1 != kv.1) = true := by simpa using hp
      simp only [List.filter, hb, List.cons_append, List.lookup]
      by_cases hk : k = p.1
      · simp [hk]
      · have : (k == p.1) = false := by simpa using hk
        simp [this, ih]

/-- C8 (amended): every EHLO resets the session, never fails, returns the
greeting `"hello {domain}"`, and the advertised keyword set maps DSN and
8BITMIME to flag entries and SIZE to the fixed maximum message size; the
handler itself does not add CHUNKING (see the counterexample) — any
CHUNKING entry must already be in the transport-provided initial set. -/
theorem C8_ehlo_reset_keywords (s : Session) (domain : String)
    (initial_keywords : List (String × Option String)) :
    ∃ kws, (ehloCmd s domain initial_keywords).1 = .ok ("hello " ++ domain, kws) ∧
      kws.lookup "DSN" = some none ∧
      kws.lookup "8BITMIME" = some none ∧
      kws.lookup "SIZE" = some (some (toString max_message_size)) ∧
      (ehloCmd s domain initial_keywords).2 = reset s ∧
      (reset s).from_ = none ∧ (reset s).rcpt = none ∧ (reset s).data = [] := by
  refine ⟨_, rfl, ?_, ?_, ?_, rfl, rfl, rfl, rfl⟩
  · rw [kwInsert_lookup_ne _ _ _ (by decide), kwInsert_lookup_ne _ _ _ (by decide)]
    exact kwInsert_lookup_self _ ("DSN", none)
  · rw [kwInsert_lookup_ne _ _ _ (by decide)]
    exact kwInsert_lookup_self _ ("8BITMIME", none)
  · exact kwInsert_lookup_self _ ("SIZE", some (toString max_message_size))

/-- C8 counterexample to the claim as stated: with an empty
transport-provided initial keyword set, the keywords advertised by `ehlo`
are exactly DSN, 8BITMIME and SIZE — CHUNKING is not among them. -/
theorem C8_counterexample :
    (ehloCmd freshSession "client.example" []).1 =
      .ok ("hello client.example",
        [("DSN", none), ("8BITMIME", none), ("SIZE", some "100000000")]) ∧
    List.lookup "CHUNKING"
      [("DSN", (none : Option String)), ("8BITMIME", none),
        ("SIZE", some "100000000")] = none :=
  ⟨rfl, rfl⟩

/-! ### Message completion -/

/-- `handle_data` panics (returns `none`) whenever the session has no
sender: the `self.from.take().unwrap()` in smtp.rs line 98. -/
theorem handle_data_no_sender (parse : List Nat → Option Message)
    (pipelineOk : Message → Bool) (t : Session) (h : t.from_ = none) :
    handle_data parse pipelineOk t = none := by
  cases h2 : t.rcpt <;> simp [handle_data, h, h2]

/-- A concrete message used by witnesses. -/
def cxMessage : Message :=
  { messageId := some "m1", date := some "2024-01-01T00:00:00+00:00",
    headersRaw := [], textBodies := [], htmlBodies := [], attachments := [] }

/-- A concrete session with envelope set and two buffered bytes. -/
def cxSession : Session :=
  { config := sampleConfig, rcpt := some "b@y.com", from_ := some "a@x.com",
    data := [65, 66] }

/-- C1 (amended): when a session with sender and recipient completes a body,
`handle_data` moves the sender and recipient out of the session (they are
`None` in the session state at the moment the pipeline is invoked, and the
pipeline receives their values as arguments), so a second completion on the
resulting session panics instead of reusing the pair; the buffer, however,
is *not* cleared at invocation time — it still holds the message bytes —
and is cleared by `reset` only after a successful ingestion. -/
theorem C1_envelope_moved_out (s : Session) (f r : String)
    (parse : List Nat → Option Message) (pipelineOk : Message → Bool)
    (hf : s.from_ = some f) (hr : s.rcpt = some r) :
    ∃ out, handle_data parse pipelineOk s = some out ∧
      (∀ c, out.call = some c →
        c.from_ = f ∧ c.rcpt = r ∧
        c.sessionAtCall.from_ = none ∧ c.sessionAtCall.rcpt = none ∧
        c.sessionAtCall.data = s.data) ∧
      out.s.from_ = none ∧ out.s.rcpt = none ∧
      (out.ok = true → out.s.data = []) ∧
      (∀ (parse2 : List Nat → Option Message) (pipelineOk2 : Message → Bool),
        handle_data parse2 pipelineOk2 out.s = none) := by
  cases hp : parse s.data with
  | none =>
    refine ⟨⟨none, false, { s with from_ := none, rcpt := none }⟩, ?_,
      ?_, rfl, rfl, ?_, ?_⟩
    · unfold handle_data
      rw [hf, hr, hp]
    · intro c hc; exact absurd hc (by simp)
    · intro h; exact absurd h (by simp)
    · intro parse2 pipelineOk2
      exact handle_data_no_sender parse2 pipelineOk2
        { s with from_ := none, rcpt := none } rfl
  | some m =>
    cases hpl : pipelineOk m with
    | true =>
      refine ⟨⟨some ⟨f, r, m, { s with from_ := none, rcpt := none }⟩, true,
        reset { s with from_ := none, rcpt := none }⟩, ?_, ?_,
        rfl, rfl, fun _ => rfl, ?_⟩
      · unfold handle_data
        rw [hf, hr, hp]
        simp [hpl]
      · intro c hc
        cases hc
        exact ⟨rfl, rfl, rfl, rfl, rfl⟩
      · intro parse2 pipelineOk2
        exact handle_data_no_sender parse2 pipelineOk2
          (reset { s with from_ := none, rcpt := none }) rfl
    | false =>
      refine ⟨⟨some ⟨f, r, m, { s with from_ := none, rcpt := none }⟩, false,
        { s with from_ := none, rcpt := none }⟩, ?_, ?_,
        rfl, rfl, ?_, ?_⟩
      · unfold handle_data
        rw [hf, hr, hp]
        simp [hpl]
      · intro c hc
        cases hc
        exact ⟨rfl, rfl, rfl, rfl, rfl⟩
      · intro h; exact absurd h (by simp)
      · intro parse2 pipelineOk2
        exact handle_data_no_sender parse2 pipelineOk2
          { s with from_ := none, rcpt := none } rfl

/-- Witness for C1 at a concrete session and parser. -/
theorem C1_envelope_moved_out_witness :
    ∃ out, handle_data (fun _ => some cxMessage) (fun _ => true) cxSession =
        some out ∧
      (∀ c, out.call = some c →
        c.from_ = "a@x.com" ∧ c.rcpt = "b@y.com" ∧
        c.sessionAtCall.from_ = none ∧ c.sessionAtCall.rcpt = none ∧
        c.sessionAtCall.data = cxSession.data) ∧
      out.s.from_ = none ∧ out.s.rcpt = none ∧
      (out.ok = true → out.s.data = []) ∧
      (∀ (parse2 : List Nat → Option Message) (pipelineOk2 : Message → Bool),
        handle_data parse2 pipelineOk2 out.s = none) :=
  C1_envelope_moved_out cxSession "a@x.com" "b@y.com"
    (fun _ => some cxMessage) (fun _ => true) rfl rfl

/-- C1 counterexample to the claim as stated: at the moment the pipeline is
invoked the session buffer still holds the accumulated message bytes — it
is not cleared (moved out) before the pipeline runs. -/
theorem C1_counterexample :
    handle_data (fun _ => some cxMessage) (fun _ => true) cxSession =
      some ⟨some ⟨"a@x.com", "b@y.com", cxMessage,
        { cxSession with from_ := none, rcpt := none }⟩, true,
        reset { cxSession with from_ := none, rcpt := none }⟩ ∧
    ({ cxSession with from_ := none, rcpt := none } : Session).data = [65, 66] ∧
    [65, 66] ≠ ([] : List Nat) :=
  ⟨rfl, rfl, by decide⟩

/-! ### Pipeline helper lemmas -/

/-- An attachment without a name makes the whole collection fail. -/
theorem processAttachments_unnamed (mg : String → Option String) (base : String) :
    ∀ (atts : List Attachment) (ix : Nat), (∃ a ∈ atts, a.name = none) →
    processAttachments mg base atts ix = .error .attachmentNoName := by
  intro atts
  induction atts with
  | nil => intro ix h; simp at h
  | cons a rest ih =>
    intro ix h
    rcases h with ⟨b, hb, hname⟩
    rcases List.mem_cons.1 hb with rfl | hmem
    · simp [processAttachments, hname]
    · cases hn2 : a.name with
      | none => simp [processAttachments, hn2]
      | some nm2 =>
        simp only [processAttachments, hn2]
        rw [ih (ix + 1) ⟨b, hmem, hname⟩]

/-- When every attachment is named, the collection succeeds and produces one
upload request and one descriptor per attachment, in order, with consecutive
indices starting at `ix`, filenames equal to the attachment names, and keys
`{base}attachments/{:02}-{name}`. -/
theorem processAttachments_named (mg : String → Option String) (base : String) :
    ∀ (atts : List Attachment) (ix : Nat), (∀ a ∈ atts, a.name.isSome) →
    ∃ us ms, processAttachments mg base atts ix = .ok (us, ms) ∧
      us.length = atts.length ∧ ms.length = atts.length ∧
      ms.map AttMeta.index = List.range' ix atts.length ∧
      ms.map AttMeta.filename = atts.map (fun a => a.name.getD "") ∧
      us.map UploadReq.key = ms.map AttMeta.rel_path ∧
      (∀ mt ∈ ms, mt.rel_path =
        base ++ "attachments/" ++ pad2 mt.index ++ "-" ++ mt.filename) ∧
      (∀ u ∈ us, ∃ rest, u.key = base ++ rest) := by
  intro atts
  induction atts with
  | nil =>
    intro ix _
    exact ⟨[], [], rfl, rfl, rfl, rfl, rfl, rfl, by simp, by simp⟩
  | cons a rest ih =>
    intro ix h
    obtain ⟨nm, hnm⟩ := Option.isSome_iff_exists.1 (h a (List.mem_cons_self a rest))
    obtain ⟨us, ms, heq, hlu, hlm, hidx, hfn, hkeys, hrel, hpre⟩ :=
      ih (ix + 1) (fun b hb => h b (List.mem_cons_of_mem a hb))
    refine ⟨⟨base ++ "attachments/" ++ pad2 ix ++ "-" ++ nm, a.contents⟩ :: us,
      ⟨ix, nm, base ++ "attachments/" ++ pad2 ix ++ "-" ++ nm,
        mg (base ++ "attachments/" ++ pad2 ix ++ "-" ++ nm)⟩ :: ms,
      ?_, ?_, ?_, ?_, ?_, ?_, ?_, ?_⟩
    · simp only [processAttachments, hnm, heq]
    · simp [hlu]
    · simp [hlm]
    · simp only [List.map_cons, List.length_cons, List.range'_succ, hidx]
    · simp [hfn, hnm]
    · simp [hkeys]
    · intro mt hmt
      rcases List.mem_cons.1 hmt with rfl | hmt2
      · rfl
      · exact hrel mt hmt2
    · intro u hu
      rcases List.mem_cons.1 hu with rfl | hu2
      · exact ⟨"attachments/" ++ pad2 ix ++ "-" ++ nm, by
          simp [String.append_assoc]⟩
      · exact hpre u hu2

/-- Mapping a function of two projections equals zipping the two mapped
projections. -/
theorem map_eq_zipWith {α β γ δ : Type} (f : α → β) (g : α → γ)
    (F : β → γ → δ) (l : List α) :
    l.map (fun x => F (f x) (g x)) = List.zipWith F (l.map f) (l.map g) := by
  induction l with
  | nil => rfl
  | cons a l ih =>
    simp only [List.map_cons, List.zipWith_cons_cons, ih]

/-- Membership in an overwrite-insert: the element was already present or is
the inserted pair. -/
theorem insertOverwrite_mem {m : List (String × String)} {kv x : String × String}
    (h : x ∈ insertOverwrite m kv) : x ∈ m ∨ x = kv := by
  unfold insertOverwrite at h
  rcases List.mem_append.1 h with h1 | h1
  · exact .inl (List.mem_of_mem_filter h1)
  · simp only [List.mem_singleton] at h1
    exact .inr h1

/-- Overwrite-insert preserves distinctness of the keys. -/
theorem insertOverwrite_keys_nodup {m : List (String × String)}
    {kv : String × String} (h : (m.map Prod.fst).Nodup) :
    ((insertOverwrite m kv).map Prod.fst).Nodup := by
  unfold insertOverwrite
  rw [List.map_append, List.nodup_append]
  refine ⟨h.sublist ((List.filter_sublist m).map Prod.fst), List.nodup_singleton _, ?_⟩
  intro x hx hx1
  simp only [List.map_cons, List.map_nil, List.mem_singleton] at hx1
  obtain ⟨p, hp, hpx⟩ := List.mem_map.1 hx
  have := List.of_mem_filter hp
  simp only [bne_iff_ne, ne_eq, decide_eq_true_eq] at this
  exact this (hpx.trans hx1)

/-- The keys of the folded header map are distinct. -/
theorem headersMapAux_keys_nodup :
    ∀ (hs acc : List (String × String)), (acc.map Prod.fst).Nodup →
    (((hs.foldl (fun m kv => insertOverwrite m (kv.1, trimStr kv.2)) acc)).map
      Prod.fst).Nodup := by
  intro hs
  induction hs with
  | nil => intro acc h; exact h
  | cons p hs ih => intro acc h; exact ih _ (insertOverwrite_keys_nodup h)

/-- Every entry of the folded header map comes from the accumulator or is a
trimmed raw header. -/
theorem headersMapAux_mem :
    ∀ (hs acc : List (String × String)) (x : String × String),
    x ∈ hs.foldl (fun m kv => insertOverwrite m (kv.1, trimStr kv.2)) acc →
    x ∈ acc ∨ ∃ v0, (x.1, v0) ∈ hs ∧ x.2 = trimStr v0 := by
  intro hs
  induction hs with
  | nil => intro acc x h; exact .inl h
  | cons p hs ih =>
    intro acc x h
    rcases ih _ x h with h1 | ⟨v0, hv0, hx⟩
    · rcases insertOverwrite_mem h1 with h2 | h2
      · exact .inl h2
      · refine .inr ⟨p.2, ?_, ?_⟩
        · rw [show x.1 = p.1 by rw [h2]]
          exact List.mem_cons_self _ _
        · rw [h2]
    · exact .inr ⟨v0, List.mem_cons_of_mem p hv0, hx⟩

/-- The header map has distinct keys. -/
theorem headersMap_keys_nodup (hs : List (String × String)) :
    ((headersMap hs).map Prod.fst).Nodup :=
  headersMapAux_keys_nodup hs [] (by simp)

/-- Every entry of the header map is a trimmed raw header value. -/
theorem headersMap_mem (hs : List (String × String)) (x : String × String)
    (h : x ∈ headersMap hs) : ∃ v0, (x.1, v0) ∈ hs ∧ x.2 = trimStr v0 := by
  rcases headersMapAux_mem hs [] x h with h1 | h1
  · simp at h1
  · exact h1

/-- Reduction of `upload_message` once the plan is known. -/
theorem upload_message_of_plan (mg : String → Option String)
    (upOk : String → Bool) (insOk : Bool) (f r : String) (m : Message)
    (us : List UploadReq) (rec : Record)
    (hplan : planMessage mg f r m = .ok (us, rec)) :
    upload_message mg upOk insOk f r m =
      if us.all (fun u => upOk u.key) then
        (if insOk then ⟨us, some rec, .ok ()⟩
         else ⟨us, none, .error .insertFailed⟩)
      else ⟨us, none, .error .uploadFailed⟩ := by
  simp only [upload_message, hplan]

/-- The issued uploads do not depend on the upload/insert outcomes. -/
theorem upload_message_issued_of_plan (mg : String → Option String)
    (upOk : String → Bool) (insOk : Bool) (f r : String) (m : Message)
    (us : List UploadReq) (rec : Record)
    (hplan : planMessage mg f r m = .ok (us, rec)) :
    (upload_message mg upOk insOk f r m).issued = us := by
  rw [upload_message_of_plan mg upOk insOk f r m us rec hplan]
  split_ifs <;> rfl

/-- The record is written exactly when every upload and the insert
succeeded. -/
theorem upload_message_record_of_plan (mg : String → Option String)
    (upOk : String → Bool) (insOk : Bool) (f r : String) (m : Message)
    (us : List UploadReq) (rec : Record)
    (hplan : planMessage mg f r m = .ok (us, rec)) :
    (upload_message mg upOk insOk f r m).record =
      if us.all (fun u => upOk u.key) && insOk then some rec else none := by
  rw [upload_message_of_plan mg upOk insOk f r m us rec hplan]
  by_cases h1 : us.all (fun u => upOk u.key) <;> cases insOk <;>
    simp [h1]

/-- C6: a missing Message-ID header, a missing Date header, or any
attachment without an attachment name makes the whole `upload_message`
operation fail with the corresponding cause, with no upload issued and no
metadata record written. -/
theorem C6_mandatory_failures (mg : String → Option String)
    (upOk : String → Bool) (insOk : Bool) (f r : String) (m : Message) :
    (m.messageId = none →
      upload_message mg upOk insOk f r m = ⟨[], none, .error .noMessageId⟩) ∧
    (∀ mid, m.messageId = some mid → m.date = none →
      upload_message mg upOk insOk f r m = ⟨[], none, .error .noDate⟩) ∧
    (∀ mid d, m.messageId = some mid → m.date = some d →
      (∃ a ∈ m.attachments, a.name = none) →
      upload_message mg upOk insOk f r m =
        ⟨[], none, .error .attachmentNoName⟩) := by
  refine ⟨?_, ?_, ?_⟩
  · intro h
    simp only [upload_message, planMessage, h]
  · intro mid h hd
    simp only [upload_message, planMessage, h, hd]
  · intro mid d h hd hex
    simp only [upload_message, planMessage, h, hd,
      processAttachments_unnamed mg (basePath f r d mid) m.attachments 0 hex]

/-- A message without a Message-ID header. -/
def wNoId : Message :=
  { messageId := none, date := some "2024-05-06T07:08:09+00:00",
    headersRaw := [], textBodies := [], htmlBodies := [], attachments := [] }

/-- A message without a Date header. -/
def wNoDate : Message :=
  { messageId := some "m2", date := none,
    headersRaw := [], textBodies := [], htmlBodies := [], attachments := [] }

/-- A message with an unnamed attachment. -/
def wNoName : Message :=
  { messageId := some "m3", date := some "2024-05-06T07:08:09+00:00",
    headersRaw := [], textBodies := [], htmlBodies := [],
    attachments := [⟨none, [1, 2, 3]⟩] }

/-- Witness for C6 at three concrete defective messages. -/
theorem C6_mandatory_failures_witness :
    upload_message (fun _ => none) (fun _ => true) true "a@x.com" "b@y.com"
      wNoId = ⟨[], none, .error .noMessageId⟩ ∧
    upload_message (fun _ => none) (fun _ => true) true "a@x.com" "b@y.com"
      wNoDate = ⟨[], none, .error .noDate⟩ ∧
    upload_message (fun _ => none) (fun _ => true) true "a@x.com" "b@y.com"
      wNoName = ⟨[], none, .error .attachmentNoName⟩ :=
  ⟨(C6_mandatory_failures (fun _ => none) (fun _ => true) true "a@x.com"
      "b@y.com" wNoId).1 rfl,
   (C6_mandatory_failures (fun _ => none) (fun _ => true) true "a@x.com"
      "b@y.com" wNoDate).2.1 "m2" rfl rfl,
   (C6_mandatory_failures (fun _ => none) (fun _ => true) true "a@x.com"
      "b@y.com" wNoName).2.2 "m3" "2024-05-06T07:08:09+00:00" rfl rfl
      ⟨⟨none, [1, 2, 3]⟩, by decide, rfl⟩⟩

/-- C10: the header mapping stored in the metadata record and serialized
into the `headers.json` upload is the collapsed map — it has at most one
value per header name (its keys are pairwise distinct) and every value is a
whitespace-trimmed raw value; the duplicate-preserving raw header list is
not what is persisted. -/
theorem C10_headers_collapsed (mg : String → Option String) (f r : String)
    (m : Message) (mid d : String)
    (hmid : m.messageId = some mid) (hd : m.date = some d)
    (hnames : ∀ a ∈ m.attachments, a.name.isSome) :
    ∃ uploads rec, planMessage mg f r m = .ok (uploads, rec) ∧
      rec.headers = headersMap m.headersRaw ∧
      (⟨basePath f r d mid ++ "headers.json",
        encodeHeaders (headersMap m.headersRaw)⟩ : UploadReq) ∈ uploads ∧
      ((headersMap m.headersRaw).map Prod.fst).Nodup ∧
      (∀ kv ∈ headersMap m.headersRaw,
        ∃ v0, (kv.1, v0) ∈ m.headersRaw ∧ kv.2 = trimStr v0) := by
  obtain ⟨us, ms, heq, _, _, _, _, _, _, _⟩ :=
    processAttachments_named mg (basePath f r d mid) m.attachments 0 hnames
  refine ⟨us ++ [⟨basePath f r d mid ++ "headers.json",
        encodeHeaders (headersMap m.headersRaw)⟩]
      ++ (match m.textBodies.head? with
          | some p => [⟨basePath f r d mid ++ "body.txt", p.contents⟩]
          | none => [])
      ++ (match m.htmlBodies.head? with
          | some p => [⟨basePath f r d mid ++ "body.html", p.contents⟩]
          | none => []),
    ⟨r, f, trimStr (((m.textBodies.head?).bind MessagePart.textContents).getD ""),
      trimStr (((m.htmlBodies.head?).bind MessagePart.textContents).getD ""),
      headersMap m.headersRaw, ms⟩, ?_, rfl, ?_, headersMap_keys_nodup _,
    fun kv hkv => headersMap_mem _ kv hkv⟩
  · simp only [planMessage, hmid, hd, heq]
  · simp

/-- A message with a duplicate header name and untrimmed values. -/
def wDupMessage : Message :=
  { messageId := some "m4", date := some "2024-05-06T07:08:09+00:00",
    headersRaw := [("Subject", " Hi "), ("X-Dup", " a "), ("X-Dup", " b ")],
    textBodies := [], htmlBodies := [], attachments := [] }

/-- Witness for C10 at a message with duplicate raw headers; it also
records concretely that the collapsed map keeps only the last trimmed
value of the duplicated name. -/
theorem C10_headers_collapsed_witness :
    (∃ uploads rec,
      planMessage (fun _ => none) "a@x.com" "b@y.com" wDupMessage =
        .ok (uploads, rec) ∧
      rec.headers = headersMap wDupMessage.headersRaw ∧
      (⟨basePath "a@x.com" "b@y.com" "2024-05-06T07:08:09+00:00" "m4"
          ++ "headers.json",
        encodeHeaders (headersMap wDupMessage.headersRaw)⟩ : UploadReq)
        ∈ uploads ∧
      ((headersMap wDupMessage.headersRaw).map Prod.fst).Nodup ∧
      (∀ kv ∈ headersMap wDupMessage.headersRaw,
        ∃ v0, (kv.1, v0) ∈ wDupMessage.headersRaw ∧ kv.2 = trimStr v0)) ∧
    headersMap wDupMessage.headersRaw = [("Subject", "Hi"), ("X-Dup", "b")] :=
  ⟨C10_headers_collapsed (fun _ => none) "a@x.com" "b@y.com" wDupMessage
      "m4" "2024-05-06T07:08:09+00:00" rfl rfl (by decide),
   by decide⟩

/-- A conditional record is present exactly when both gating booleans
hold. -/
theorem isSome_if_and (b c : Bool) (R : Record) :
    (if b && c then some R else none).isSome ↔ b = true ∧ c = true := by
  cases b <;> cases c <;> simp

/-- C4: for a parseable message (message-id and date present, all
attachments named) the pipeline issues exactly one upload per attachment
plus one header upload plus one text-body upload when a text body exists
plus one html-body upload when an html body exists; the metadata record is
written exactly when every issued upload and the insert succeed, and it
contains the recipient, the sender, the trimmed first text/html body
contents, the collapsed header mapping, and one descriptor per attachment
in original message order (indices 0..N-1, filenames in message order). -/
theorem C4_uploads_then_record (mg : String → Option String)
    (upOk : String → Bool) (insOk : Bool) (f r : String) (m : Message)
    (mid d : String)
    (hmid : m.messageId = some mid) (hd : m.date = some d)
    (hnames : ∀ a ∈ m.attachments, a.name.isSome) :
    (upload_message mg upOk insOk f r m).issued.length =
      m.attachments.length + 1 + (if m.textBodies.isEmpty then 0 else 1)
        + (if m.htmlBodies.isEmpty then 0 else 1) ∧
    ((upload_message mg upOk insOk f r m).record.isSome ↔
      ((upload_message mg upOk insOk f r m).issued.all
        (fun u => upOk u.key)) = true ∧ insOk = true) ∧
    (∀ rec, (upload_message mg upOk insOk f r m).record = some rec →
      rec.rcpt = r ∧ rec.from_ = f ∧
      rec.body_text =
        trimStr (((m.textBodies.head?).bind MessagePart.textContents).getD "") ∧
      rec.body_html =
        trimStr (((m.htmlBodies.head?).bind MessagePart.textContents).getD "") ∧
      rec.headers = headersMap m.headersRaw ∧
      rec.attachments.length = m.attachments.length ∧
      rec.attachments.map AttMeta.index = List.range' 0 m.attachments.length ∧
      rec.attachments.map AttMeta.filename =
        m.attachments.map (fun a => a.name.getD "")) := by
  obtain ⟨us, ms, heq, hlu, hlm, hidx, hfn, hkeys, hrel, hpre⟩ :=
    processAttachments_named mg (basePath f r d mid) m.attachments 0 hnames
  have hplan : planMessage mg f r m =
      .ok (us ++ [⟨basePath f r d mid ++ "headers.json",
            encodeHeaders (headersMap m.headersRaw)⟩]
          ++ (match m.textBodies.head? with
              | some p => [⟨basePath f r d mid ++ "body.txt", p.contents⟩]
              | none => [])
          ++ (match m.htmlBodies.head? with
              | some p => [⟨basePath f r d mid ++ "body.html", p.contents⟩]
              | none => []),
        ⟨r, f,
          trimStr (((m.textBodies.head?).bind MessagePart.textContents).getD ""),
          trimStr (((m.htmlBodies.head?).bind MessagePart.textContents).getD ""),
          headersMap m.headersRaw, ms⟩) := by
    simp only [planMessage, hmid, hd, heq]
  have hissued := upload_message_issued_of_plan mg upOk insOk f r m _ _ hplan
  have hrecord := upload_message_record_of_plan mg upOk insOk f r m _ _ hplan
  refine ⟨?_, ?_, ?_⟩
  · rw [hissued]
    cases ht : m.textBodies <;> cases hh : m.htmlBodies <;>
      simp [List.length_append, hlu]
  · rw [hrecord, hissued]
    exact isSome_if_and _ _ _
  · intro rec hrec
    rw [hrecord] at hrec
    split_ifs at hrec with hcond
    injection hrec with hrec2
    subst hrec2
    exact ⟨rfl, rfl, rfl, rfl, rfl, hlm, hidx, hfn⟩

/-- A well-formed message with two named attachments, a text body and an
html body. -/
def wFullMessage : Message :=
  { messageId := some "id1", date := some "2024-05-06T07:08:09+00:00",
    headersRaw := [("Subject", " Hi ")],
    textBodies := [⟨strBytes "hello", some " hello "⟩],
    htmlBodies := [⟨strBytes "<p>hello</p>", some "<p>hello</p>"⟩],
    attachments := [⟨some "a.pdf", [1, 2]⟩, ⟨some "b.png", [3]⟩] }

/-- Witness for C4 at a concrete two-attachment message. -/
theorem C4_uploads_then_record_witness :
    (upload_message (fun _ => none) (fun _ => true) true "a@x.com" "B@Y.com"
        wFullMessage).issued.length =
      wFullMessage.attachments.length + 1
        + (if wFullMessage.textBodies.isEmpty then 0 else 1)
        + (if wFullMessage.htmlBodies.isEmpty then 0 else 1) ∧
    ((upload_message (fun _ => none) (fun _ => true) true "a@x.com" "B@Y.com"
        wFullMessage).record.isSome ↔
      ((upload_message (fun _ => none) (fun _ => true) true "a@x.com" "B@Y.com"
        wFullMessage).issued.all (fun u => (fun _ => true) u.key)) = true ∧
        true = true) ∧
    (∀ rec, (upload_message (fun _ => none) (fun _ => true) true "a@x.com"
        "B@Y.com" wFullMessage).record = some rec →
      rec.rcpt = "B@Y.com" ∧ rec.from_ = "a@x.com" ∧
      rec.body_text = trimStr (((wFullMessage.textBodies.head?).bind
        MessagePart.textContents).getD "") ∧
      rec.body_html = trimStr (((wFullMessage.htmlBodies.head?).bind
        MessagePart.textContents).getD "") ∧
      rec.headers = headersMap wFullMessage.headersRaw ∧
      rec.attachments.length = wFullMessage.attachments.length ∧
      rec.attachments.map AttMeta.index =
        List.range' 0 wFullMessage.attachments.length ∧
      rec.attachments.map AttMeta.filename =
        wFullMessage.attachments.map (fun a => a.name.getD "")) :=
  C4_uploads_then_record (fun _ => none) (fun _ => true) true "a@x.com"
    "B@Y.com" wFullMessage "id1" "2024-05-06T07:08:09+00:00" rfl rfl
    (by decide)

/-- C7: every blob key of a delivered message lives under the base prefix
`lowercase(R)/F/D-M/` (only the recipient lowercased), and the issued keys
are exactly the `attachments/NN-<filename>` keys (NN the zero-padded
position, filenames in message order), `headers.json`, `body.txt` when a
text body exists and `body.html` when an html body exists. -/
theorem C7_storage_key_layout (mg : String → Option String)
    (upOk : String → Bool) (insOk : Bool) (f r : String) (m : Message)
    (mid d : String)
    (hmid : m.messageId = some mid) (hd : m.date = some d)
    (hnames : ∀ a ∈ m.attachments, a.name.isSome) :
    basePath f r d mid = lowerStr r ++ "/" ++ f ++ "/" ++ d ++ "-" ++ mid ++ "/" ∧
    (upload_message mg upOk insOk f r m).issued.map UploadReq.key =
      List.zipWith (fun i nm =>
          basePath f r d mid ++ "attachments/" ++ pad2 i ++ "-" ++ nm)
        (List.range' 0 m.attachments.length)
        (m.attachments.map (fun a => a.name.getD ""))
      ++ [basePath f r d mid ++ "headers.json"]
      ++ (if m.textBodies.isEmpty then []
          else [basePath f r d mid ++ "body.txt"])
      ++ (if m.htmlBodies.isEmpty then []
          else [basePath f r d mid ++ "body.html"]) ∧
    (∀ k ∈ (upload_message mg upOk insOk f r m).issued.map UploadReq.key,
      ∃ rest, k = basePath f r d mid ++ rest) := by
  obtain ⟨us, ms, heq, hlu, hlm, hidx, hfn, hkeys, hrel, hpre⟩ :=
    processAttachments_named mg (basePath f r d mid) m.attachments 0 hnames
  have hplan : planMessage mg f r m =
      .ok (us ++ [⟨basePath f r d mid ++ "headers.json",
            encodeHeaders (headersMap m.headersRaw)⟩]
          ++ (match m.textBodies.head? with
              | some p => [⟨basePath f r d mid ++ "body.txt", p.contents⟩]
              | none => [])
          ++ (match m.htmlBodies.head? with
              | some p => [⟨basePath f r d mid ++ "body.html", p.contents⟩]
              | none => []),
        ⟨r, f,
          trimStr (((m.textBodies.head?).bind MessagePart.textContents).getD ""),
          trimStr (((m.htmlBodies.head?).bind MessagePart.textContents).getD ""),
          headersMap m.headersRaw, ms⟩) := by
    simp only [planMessage, hmid, hd, heq]
  have hissued := upload_message_issued_of_plan mg upOk insOk f r m _ _ hplan
  have huskeys : us.map UploadReq.key =
      List.zipWith (fun i nm =>
          basePath f r d mid ++ "attachments/" ++ pad2 i ++ "-" ++ nm)
        (List.range' 0 m.attachments.length)
        (m.attachments.map (fun a => a.name.getD "")) := by
    rw [hkeys, List.map_congr_left hrel,
      map_eq_zipWith AttMeta.index AttMeta.filename
        (fun i nm => basePath f r d mid ++ "attachments/" ++ pad2 i ++ "-" ++ nm) ms,
      hidx, hfn]
  refine ⟨rfl, ?_, ?_⟩
  · rw [hissued]
    simp only [List.map_append, huskeys]
    cases ht : m.textBodies <;> cases hh : m.htmlBodies <;> simp
  · rw [hissued]
    intro k hk
    obtain ⟨u, hu, rfl⟩ := List.mem_map.1 hk
    rcases List.mem_append.1 hu with hu1 | hu1
    · rcases List.mem_append.1 hu1 with hu2 | hu2
      · rcases List.mem_append.1 hu2 with hu3 | hu3
        · exact hpre u hu3
        · simp only [List.mem_singleton] at hu3
          exact ⟨"headers.json", by rw [hu3]⟩
      · cases ht : m.textBodies with
        | nil => rw [ht] at hu2; simp at hu2
        | cons p l =>
          rw [ht] at hu2
          simp only [List.head?, List.mem_singleton] at hu2
          exact ⟨"body.txt", by rw [hu2]⟩
    · cases hh : m.htmlBodies with
      | nil => rw [hh] at hu1; simp at hu1
      | cons p l =>
        rw [hh] at hu1
        simp only [List.head?, List.mem_singleton] at hu1
        exact ⟨"body.html", by rw [hu1]⟩

/-- Witness for C7 at a concrete two-attachment message. -/
theorem C7_storage_key_layout_witness :
    basePath "a@x.com" "B@Y.com" "2024-05-06T07:08:09+00:00" "id1" =
      lowerStr "B@Y.com" ++ "/" ++ "a@x.com" ++ "/"
        ++ "2024-05-06T07:08:09+00:00" ++ "-" ++ "id1" ++ "/" ∧
    (upload_message (fun _ => none) (fun _ => true) true "a@x.com" "B@Y.com"
        wFullMessage).issued.map UploadReq.key =
      List.zipWith (fun i nm =>
          basePath "a@x.com" "B@Y.com" "2024-05-06T07:08:09+00:00" "id1"
            ++ "attachments/" ++ pad2 i ++ "-" ++ nm)
        (List.range' 0 wFullMessage.attachments.length)
        (wFullMessage.attachments.map (fun a => a.name.getD ""))
      ++ [basePath "a@x.com" "B@Y.com" "2024-05-06T07:08:09+00:00" "id1"
            ++ "headers.json"]
      ++ (if wFullMessage.textBodies.isEmpty then []
          else [basePath "a@x.com" "B@Y.com" "2024-05-06T07:08:09+00:00" "id1"
            ++ "body.txt"])
      ++ (if wFullMessage.htmlBodies.isEmpty then []
          else [basePath "a@x.com" "B@Y.com" "2024-05-06T07:08:09+00:00" "id1"
            ++ "body.html"]) ∧
    (∀ k ∈ (upload_message (fun _ => none) (fun _ => true) true "a@x.com"
        "B@Y.com" wFullMessage).issued.map UploadReq.key,
      ∃ rest,
        k = basePath "a@x.com" "B@Y.com" "2024-05-06T07:08:09+00:00" "id1"
          ++ rest) :=
  C7_storage_key_layout (fun _ => none) (fun _ => true) true "a@x.com"
    "B@Y.com" wFullMessage "id1" "2024-05-06T07:08:09+00:00" rfl rfl
    (by decide)

end SmtpS3Dump
